import Mathlib

/-!
Verification of the CliCast session/streaming core against its specification.

The definitions below are a shallow embedding of the server sources:
  - `validatePath`            from `apps/server/src/services/file.ts`
  - the token store           from `apps/server/src/services/token.ts` and `config-file.ts`
  - the `DELETE /auth` route  from `apps/server/src/api/auth.ts`
  - the session registry      from `apps/server/src/services/terminal.ts`
  - the WebSocket hub         from `apps/server/src/services/websocket.ts`
    and the `/ws` upgrade branch of `Bun.serve` in `apps/server/src/index.ts`

JavaScript strings are modelled as Lean `String`; their code-unit operations
(`startsWith`, `includes`, `trim`, the `--workdir` regex) are modelled on the
character list `String.data`.  Wall-clock timestamps are `Int` milliseconds.
External effects (PTY spawn outcome, the current time) are explicit parameters.
-/

namespace CliCast

/-! ## JavaScript string primitives -/

/-- JS `String.prototype.startsWith(pre)`: `pre` is a code-unit prefix of `s`. -/
def jsStartsWith (s pre : String) : Bool :=
  pre.data.isPrefixOf s.data

/-- JS `\s` whitespace class, restricted to the ASCII characters that occur in
command strings. -/
def jsIsSpace (c : Char) : Bool :=
  c = ' ' || c = '\t' || c = '\n' || c = '\r' || c = '\x0b' || c = '\x0c'

/-- JS `String.prototype.trim()`: strip whitespace from both ends. -/
def jsTrim (s : String) : String :=
  String.mk (((s.data.dropWhile jsIsSpace).reverse.dropWhile jsIsSpace).reverse)

/-- Substring search on character lists (JS `String.prototype.includes`). -/
def containsSub : List Char → List Char → Bool
  | [], needle => needle.isEmpty
  | hay@(_ :: rest), needle => needle.isPrefixOf hay || containsSub rest needle

/-- JS `String.prototype.includes(sub)`. -/
def jsIncludes (s sub : String) : Bool :=
  containsSub s.data sub.data

/-! ## Path guard (`file.ts`, `validatePath`) -/

/-- The path guard from `file.ts`:

    if (allowedDirs.length === 0) return true;
    return allowedDirs.some((allowed) =>
      path === allowed || path.startsWith(allowed + "/"));
-/
def validatePath (path : String) (allowedDirs : List String) : Bool :=
  if allowedDirs.isEmpty then true
  else allowedDirs.any fun allowed => path == allowed || jsStartsWith path (allowed ++ "/")

/-- The guard predicate exactly as the specification words it: the allow-list
is empty, or the path equals an entry, or it begins with an entry followed by
a slash.  Written from the spec, to be compared with `validatePath`. -/
def guardAccepts (A : List String) (p : String) : Prop :=
  A = [] ∨ ∃ a ∈ A, p = a ∨ ∃ rest : String, p = a ++ "/" ++ rest

/-- Split a character list on slashes (spec-side helper for talking about
path segments). -/
def splitOnSlash : List Char → List (List Char)
  | [] => [[]]
  | c :: cs =>
    let r := splitOnSlash cs
    if c = '/' then [] :: r
    else
      match r with
      | [] => [[c]]
      | s :: rest => (c :: s) :: rest

/-- Spec-side predicate: the path contains a `..` segment. -/
def hasDotDotSegment (p : String) : Bool :=
  (splitOnSlash p.data).any (fun seg => seg == ['.', '.'])

/-- Spec-side predicate: the path is absolute (starts with a slash). -/
def isAbsolutePath (p : String) : Bool :=
  jsStartsWith p "/"

/-! ## Token store (`config-file.ts`, `token.ts`) -/

/-- Version string written by `config-file.ts`. -/
def CONFIG_VERSION : String := "1.0.0"

/-- The `auth` block of `clicast.json`. -/
structure AuthEntry where
  tokenHash : String
  deriving DecidableEq

/-- The persisted `clicast.json` configuration.  The `port`, `allowedDirs`
and `aiCommands` fields are carried unchanged by every token operation and
are not needed by any claim, so only `version` and `auth` are modelled. -/
structure ConfigFile where
  version : String
  auth : Option AuthEntry
  deriving DecidableEq

/-- The file-system state seen by the token store: the optional
`clicast.json` file and the optional legacy `.clicast-token` file (its raw
contents when present). -/
structure TokenFs where
  configFile : Option ConfigFile
  legacyFile : Option String
  deriving DecidableEq

/-- `migrateLegacyTokenFile` from `config-file.ts`: when the legacy token
file exists and `clicast.json` does not, write a fresh config whose
`auth.tokenHash` is the trimmed legacy contents. -/
def migrateLegacyTokenFile (st : TokenFs) : TokenFs :=
  match st.legacyFile, st.configFile with
  | some contents, none =>
    { st with configFile := some { version := CONFIG_VERSION, auth := some { tokenHash := jsTrim contents } } }
  | _, _ => st

/-- The legacy-file fallback inside `getStoredTokenHash`: read and trim
`.clicast-token` when it exists, else `null`. -/
def legacyHashFallback (st : TokenFs) : Option String × TokenFs :=
  match st.legacyFile with
  | some contents => (some (jsTrim contents), st)
  | none => (none, st)

/-- `getStoredTokenHash` from `token.ts`: migrate the legacy file first, then
read `config.auth.tokenHash` (a JS truthiness test, so an empty hash falls
through), and finally fall back to the legacy file. -/
def getStoredTokenHash (st : TokenFs) : Option String × TokenFs :=
  let st1 := migrateLegacyTokenFile st
  match st1.configFile with
  | some cfg =>
    match cfg.auth with
    | some a => if a.tokenHash ≠ "" then (some a.tokenHash, st1) else legacyHashFallback st1
    | none => legacyHashFallback st1
  | none => legacyHashFallback st1

/-- `verifyToken` from `token.ts`.  SHA-256 is abstracted as the `hash`
parameter; `if (!storedHash) return false` also rejects an empty stored
hash (JS falsiness). -/
def verifyToken (hash : String → String) (st : TokenFs) (token : String) : Bool × TokenFs :=
  match getStoredTokenHash st with
  | (none, st1) => (false, st1)
  | (some h, st1) => if h = "" then (false, st1) else (hash token == h, st1)

/-- `deleteToken` from `token.ts`: remove the `auth` block from the config
file when present, unlink the legacy file when present, and report whether
anything was deleted. -/
def deleteToken (st : TokenFs) : Bool × TokenFs :=
  let step1 : Bool × TokenFs :=
    match st.configFile with
    | some cfg =>
      match cfg.auth with
      | some _ => (true, { st with configFile := some { cfg with auth := none } })
      | none => (false, st)
    | none => (false, st)
  match step1.2.legacyFile with
  | some _ => (true, { step1.2 with legacyFile := none })
  | none => (step1.1, step1.2)

/-- The `DELETE /auth` route of `auth.ts`.  The auth router installs no
authentication middleware (`const app = new Hono()` with no `app.use`), so
the handler never reads the `Authorization` header; it is taken as a
parameter only to show that the outcome ignores it.  The handler returns 404
when nothing was deleted and 200 otherwise. -/
def deleteAuthRoute (authHeader : Option String) (st : TokenFs) : Nat × TokenFs :=
  let _ := authHeader
  match deleteToken st with
  | (false, st1) => (404, st1)
  | (true, st1) => (200, st1)

/-! ## Session registry (`terminal.ts`) -/

/-- Session status literals used by `terminal.ts` and the shared types. -/
inductive SessionStatus where
  | created
  | running
  | exited
  | terminated
  | idle
  | error
  | timeout
  deriving DecidableEq

/-- A registry record (`PtySession` in `terminal.ts`).  The owned PTY handle
is modelled by `hasProcess`; `outputHistory` is `none` until `startPty`
initializes it to an empty array. -/
structure SessionRec where
  id : String
  path : String
  status : SessionStatus
  createdAt : Int
  lastActivity : Int
  hasProcess : Bool
  outputHistory : Option (List String)
  aiCommand : String
  deriving DecidableEq

/-- The module-level `sessions` map, `id -> record`. -/
abbrev SessionMap := List (String × SessionRec)

/-- In-place mutation of the record bound to `id` (JS mutates the object held
in the `Map`). -/
def updateEntry (m : SessionMap) (id : String) (f : SessionRec → SessionRec) : SessionMap :=
  m.map fun e => if e.1 == id then (e.1, f e.2) else e

/-- `sessionExists` from `terminal.ts`: `sessions.has(sessionId)`. -/
def sessionExists (m : SessionMap) (sessionId : String) : Bool :=
  (List.lookup sessionId m).isSome

/-- `MAX_HISTORY_SIZE` from `terminal.ts`: `100 * 1024` (100 KiB). -/
def MAX_HISTORY_SIZE : Nat := 100 * 1024

/-- `SESSION_TIMEOUT` from `terminal.ts`: 30 minutes in milliseconds. -/
def SESSION_TIMEOUT : Int := 30 * 60 * 1000

/-- `HEARTBEAT_INTERVAL` from `terminal.ts`: 30 seconds in milliseconds. -/
def HEARTBEAT_INTERVAL : Int := 30 * 1000

/-- Total size of the retained chunks (the `totalSize` accumulation loop in
`trimSessionHistory`; JS `chunk.length` is the chunk's code-unit count). -/
def sumLen : List String → Nat
  | [] => 0
  | chunk :: rest => chunk.length + sumLen rest

/-- The `while` loop of `trimSessionHistory`: while the total exceeds
`MAX_HISTORY_SIZE` and chunks remain, `shift()` the oldest chunk off the
front and subtract its length. -/
def trimLoop (totalSize : Nat) : List String → List String
  | [] => []
  | removed :: rest =>
    if MAX_HISTORY_SIZE < totalSize then trimLoop (totalSize - removed.length) rest
    else removed :: rest

/-- `trimSessionHistory` from `terminal.ts`, as a function of the history
array it mutates. -/
def trimSessionHistory (history : List String) : List String :=
  trimLoop (sumLen history) history

/-- The history update performed by the `onData` handler in `startPty`:
`outputHistory.push(data)` followed by `trimSessionHistory(sessionId)`. -/
def appendChunk (history : List String) (data : String) : List String :=
  trimSessionHistory (history ++ [data])

/-- The record transformation of `terminateSession`: kill and null the PTY
when present, set the status to `reason`, bump `lastActivity`. -/
def terminateRec (now : Int) (reason : SessionStatus) (s : SessionRec) : SessionRec :=
  { s with hasProcess := false, status := reason, lastActivity := now }

/-- One tick of the idle reaper (`startHeartbeat` in `terminal.ts`): every
record with `status === 'running'` whose `lastActivity` is more than
`SESSION_TIMEOUT` old is passed to `terminateSession(id, 'terminated')`. -/
def heartbeatTick (now : Int) (sessions : SessionMap) : SessionMap :=
  sessions.map fun e =>
    if e.2.status = SessionStatus.running ∧ SESSION_TIMEOUT < now - e.2.lastActivity then
      (e.1, terminateRec now SessionStatus.terminated e.2)
    else e

/-! ## WebSocket hub (`websocket.ts`, `index.ts`) -/

/-- The per-connection data attached at upgrade time (`WsData`). -/
structure WsData where
  sessionId : String
  connectedAt : Int
  initialized : Bool
  deriving DecidableEq

/-- Server-to-client frames (`ServerMessage`).  The `history` frame is part
of the wire protocol consumed by the web client (`ws-manager`,
`dispatchMessage`). -/
inductive ServerMsg where
  | ready (sessionId : String)
  | output (data : String)
  | history (data : List String)
  | status (status : SessionStatus) (sessionId : String)
  | error (message : String)
  | exit (code : Int) (signal : Option Int)
  | pong
  deriving DecidableEq

/-- A `/ws` upgrade request as the server reads it: the URL path, the
`upgrade` header, and the `sessionId` and `token` query parameters. -/
structure UpgradeRequest where
  path : String
  upgradeHeader : Option String
  sessionId : Option String
  token : Option String
  deriving DecidableEq

/-- Outcome of the `fetch` branch handling `/ws` in `index.ts`. -/
inductive UpgradeOutcome where
  | rejected (httpStatus : Nat) (body : String)
  | accepted (data : WsData)
  | passedToHttp
  deriving DecidableEq

/-- `getUpgradeData` from `websocket.ts`: reject when the `sessionId` query
parameter is absent or names no registry record; otherwise return the
connection data.  The `token` query parameter is never read. -/
def getUpgradeData (req : UpgradeRequest) (sessions : SessionMap) (now : Int) : Option WsData :=
  match req.sessionId with
  | none => none
  | some sid =>
    if sessionExists sessions sid then
      some { sessionId := sid, connectedAt := now, initialized := false }
    else none

/-- The `/ws` branch of the `Bun.serve` `fetch` handler in `index.ts`: on a
WebSocket upgrade request, a `null` result from `getUpgradeData` is answered
with HTTP 400, otherwise `server.upgrade` accepts the connection (whereupon
the `open` handler registers the socket in the session's client set). -/
def fetchWsUpgrade (req : UpgradeRequest) (sessions : SessionMap) (now : Int) : UpgradeOutcome :=
  if req.path == "/ws" && req.upgradeHeader == some "websocket" then
    match getUpgradeData req sessions now with
    | none => UpgradeOutcome.rejected 400 "Missing sessionId parameter"
    | some d => UpgradeOutcome.accepted d
  else UpgradeOutcome.passedToHttp

/-! ## Terminal start and message handling (`terminal.ts`, `websocket.ts`) -/

/-- `startPty` from `terminal.ts`.  The PTY spawn is an external effect whose
outcome is the `spawnOk` parameter (`spawnErr` is the exception message on
failure).  Returns the success flag, the updated registry, and the frames the
registered callbacks broadcast to the session's clients: `onStatusChange`
becomes a `status` frame and `onError` an `error` frame (`websocket.ts`,
`handleInit` callbacks). -/
def startPty (sessions : SessionMap) (sessionId : String) (now : Int)
    (spawnOk : Bool) (spawnErr : String) : Bool × SessionMap × List ServerMsg :=
  match List.lookup sessionId sessions with
  | none => (false, sessions, [])
  | some _ =>
    if spawnOk then
      (true,
       updateEntry sessions sessionId fun s =>
         { s with hasProcess := true, status := SessionStatus.running,
                  lastActivity := now, outputHistory := some [] },
       [ServerMsg.status SessionStatus.running sessionId])
    else
      (false,
       updateEntry sessions sessionId fun s => { s with status := SessionStatus.exited },
       [ServerMsg.error spawnErr, ServerMsg.status SessionStatus.exited sessionId])

/-- `initializeTerminal` from `terminal.ts`: fail when the session is
unknown; succeed without respawning when a PTY already runs; otherwise store
the callbacks (implicit in the broadcast list) and start the PTY.  The
`cols`/`rows` dimensions only parameterize the spawn and are omitted. -/
def initializeTerminal (sessions : SessionMap) (sessionId : String) (now : Int)
    (spawnOk : Bool) (spawnErr : String) : Bool × SessionMap × List ServerMsg :=
  match List.lookup sessionId sessions with
  | none => (false, sessions, [])
  | some s =>
    if s.hasProcess then (true, sessions, [])
    else startPty sessions sessionId now spawnOk spawnErr

/-- `handleInit` from `websocket.ts`.  Returns the new connection data, the
updated registry, the frames sent directly to this socket, and the frames
broadcast to the session's clients during `initializeTerminal` (the
broadcasts happen before the direct `ready`/`error` reply). -/
def handleInit (ws : WsData) (sessions : SessionMap) (now : Int)
    (spawnOk : Bool) (spawnErr : String) : WsData × SessionMap × List ServerMsg × List ServerMsg :=
  if ws.initialized then (ws, sessions, [ServerMsg.ready ws.sessionId], [])
  else
    match initializeTerminal sessions ws.sessionId now spawnOk spawnErr with
    | (true, sessions1, broadcasts) =>
      ({ ws with initialized := true }, sessions1, [ServerMsg.ready ws.sessionId], broadcasts)
    | (false, sessions1, broadcasts) =>
      (ws, sessions1, [ServerMsg.error "Failed to initialize terminal"], broadcasts)

/-- `writeToTerminal` from `terminal.ts`: when the session and its PTY exist,
bump `lastActivity` and write the data to the PTY (recorded as a
`(sessionId, data)` pair); otherwise log and do nothing. -/
def writeToTerminal (sessions : SessionMap) (sessionId data : String) (now : Int) :
    SessionMap × List (String × String) :=
  match List.lookup sessionId sessions with
  | none => (sessions, [])
  | some s =>
    if s.hasProcess then
      (updateEntry sessions sessionId fun r => { r with lastActivity := now }, [(sessionId, data)])
    else (sessions, [])

/-- The `input` case of `handleMessage` in `websocket.ts`: before `init` the
server replies with an error frame and returns; after `init` the data is
forwarded to the PTY.  Returns the frames sent to this socket, the updated
registry, and the PTY writes performed. -/
def handleInput (ws : WsData) (sessions : SessionMap) (data : String) (now : Int) :
    List ServerMsg × SessionMap × List (String × String) :=
  if ws.initialized then
    match writeToTerminal sessions ws.sessionId data now with
    | (sessions1, writes) => ([], sessions1, writes)
  else
    ([ServerMsg.error "Terminal not initialized. Send init first."], sessions, [])

/-! ## Command-string interpretation (`terminal.ts`, `parseCommand`) -/

/-- Attempt to match the regex tail `\s+(\S+)` at the text following a
`--workdir` literal: at least one whitespace character, then the maximal
nonempty run of non-whitespace characters (the capture).  Returns the capture
and the remaining text. -/
def matchTailAt (cs : List Char) : Option (List Char × List Char) :=
  let spaces := cs.takeWhile jsIsSpace
  let afterSpaces := cs.dropWhile jsIsSpace
  if spaces.isEmpty then none
  else
    let cap := afterSpaces.takeWhile fun c => !jsIsSpace c
    let rem := afterSpaces.dropWhile fun c => !jsIsSpace c
    if cap.isEmpty then none else some (cap, rem)

/-- The literal of the `--workdir` regex. -/
def workdirLit : List Char := ['-', '-', 'w', 'o', 'r', 'k', 'd', 'i', 'r']

/-- First match of the JS regex `--workdir\s+(\S+)`: scan left to right for a
position where the literal followed by `\s+(\S+)` matches.  Returns the text
before the match, the captured directory, and the text after the match. -/
def findWorkdir : List Char → Option (List Char × List Char × List Char)
  | [] => none
  | c :: cs =>
    match
      (if workdirLit.isPrefixOf (c :: cs) then matchTailAt ((c :: cs).drop workdirLit.length)
       else none) with
    | some (cap, rem) => some ([], cap, rem)
    | none =>
      match findWorkdir cs with
      | some (pre, cap, rem) => some (c :: pre, cap, rem)
      | none => none

/-- JS `command.match` against the `--workdir\s+(\S+)` regex, reduced to the
first capture group. -/
def jsMatchWorkdir (command : String) : Option String :=
  match findWorkdir command.data with
  | some (_, cap, _) => some (String.mk cap)
  | none => none

/-- JS `command.replace` of the first `--workdir\s+(\S+)` match by the empty
string, or the string unchanged when there is no match. -/
def jsReplaceWorkdir (command : String) : String :=
  match findWorkdir command.data with
  | some (pre, _, rem) => String.mk (pre ++ rem)
  | none => command

/-- `parseCommand` from `terminal.ts` (the `bun-pty` registry, lines
421-434): a bare or empty command becomes `bash -c 'cd "<cwd>" && claude'`;
a command containing `--workdir` has its first `--workdir <dir>` match
stripped and `<dir>` replaces the cwd, with `rest || command` as the command
body; anything else runs as `bash -c 'cd "<cwd>" && <command>'`. -/
def parseCommand (command cwd : String) : List String :=
  if command == "claude" || jsTrim command == "" then
    ["bash", "-c", "cd \"" ++ cwd ++ "\" && claude"]
  else if jsIncludes command "--workdir" then
    let workdir :=
      match jsMatchWorkdir command with
      | some dir => dir
      | none => cwd
    let rest := jsTrim (jsReplaceWorkdir command)
    ["bash", "-c", "cd \"" ++ workdir ++ "\" && " ++ (if rest == "" then command else rest)]
  else
    ["bash", "-c", "cd \"" ++ cwd ++ "\" && " ++ command]

/-! ## Concrete states used by closed theorems -/

/-- A freshly created session record, as `createSession("/tmp")` builds it. -/
def demoSession : SessionRec :=
  { id := "s1", path := "/tmp", status := SessionStatus.created, createdAt := 0,
    lastActivity := 0, hasProcess := false, outputHistory := none, aiCommand := "claude" }

/-- A token-store state holding a stored hash in `clicast.json` and no
legacy file. -/
def demoTokenFs : TokenFs :=
  { configFile := some { version := CONFIG_VERSION, auth := some { tokenHash := "secret-hash" } },
    legacyFile := none }

/-- Recognizer for `history` frames. -/
def isHistoryFrame : ServerMsg → Bool
  | ServerMsg.history _ => true
  | _ => false

/-- A running session whose last activity was at time 0. -/
def staleSession : SessionRec :=
  { demoSession with status := SessionStatus.running, lastActivity := 0, hasProcess := true }

/-- A running session whose last activity was at time 1800001. -/
def freshSession : SessionRec :=
  { demoSession with id := "s2", status := SessionStatus.running, lastActivity := 1800001,
                     hasProcess := true }

/-! ## Helper lemmas -/

theorem string_data_inj {s t : String} (h : s.data = t.data) : s = t := by
  cases s
  cases t
  exact congrArg String.mk h

theorem isPrefixOf_true_iff (l1 l2 : List Char) :
    l1.isPrefixOf l2 = true ↔ ∃ t, l1 ++ t = l2 := by
  induction l1 generalizing l2 with
  | nil => simp [List.isPrefixOf]
  | cons a as ih =>
    cases l2 with
    | nil => simp [List.isPrefixOf]
    | cons b bs =>
      simp only [List.isPrefixOf, Bool.and_eq_true, beq_iff_eq, ih, List.cons_append,
        List.cons.injEq]
      constructor
      · rintro ⟨rfl, t, rfl⟩
        exact ⟨t, rfl, rfl⟩
      · rintro ⟨t, hab, ht⟩
        exact ⟨hab, t, ht⟩

theorem jsStartsWith_iff (s q : String) :
    jsStartsWith s q = true ↔ ∃ r : String, s = q ++ r := by
  unfold jsStartsWith
  rw [isPrefixOf_true_iff]
  constructor
  · rintro ⟨t, ht⟩
    refine ⟨String.mk t, string_data_inj ?_⟩
    rw [String.data_append]
    exact ht.symm
  · rintro ⟨r, rfl⟩
    exact ⟨r.data, (String.data_append q r).symm⟩

theorem trimLoop_sum_le (hist : List String) :
    ∀ total : Nat, total = sumLen hist → sumLen (trimLoop total hist) ≤ MAX_HISTORY_SIZE := by
  induction hist with
  | nil =>
    intro total ht
    simp [trimLoop, sumLen]
  | cons c rest ih =>
    intro total ht
    by_cases hgt : MAX_HISTORY_SIZE < total
    · rw [trimLoop, if_pos hgt]
      apply ih
      subst ht
      simp [sumLen]
    · rw [trimLoop, if_neg hgt]
      rw [← ht]
      exact Nat.le_of_not_lt hgt

theorem trimLoop_suffix (hist : List String) :
    ∀ total : Nat, ∃ dropped, dropped ++ trimLoop total hist = hist := by
  induction hist with
  | nil =>
    intro total
    exact ⟨[], rfl⟩
  | cons c rest ih =>
    intro total
    by_cases hgt : MAX_HISTORY_SIZE < total
    · obtain ⟨t, ht⟩ := ih (total - c.length)
      refine ⟨c :: t, ?_⟩
      rw [trimLoop, if_pos hgt]
      simpa using ht
    · refine ⟨[], ?_⟩
      rw [trimLoop, if_neg hgt]
      rfl

/-! ## Claim theorems -/

/-- C3: for every allow-list `A` and path `p`, the path guard accepts `p` if
and only if `A` is empty, or `p` equals some entry of `A` exactly, or `p`
begins with some entry of `A` followed by a slash. -/
theorem validatePath_iff_guard_spec (p : String) (A : List String) :
    validatePath p A = true ↔ guardAccepts A p := by
  unfold validatePath guardAccepts
  by_cases hA : A = []
  · subst hA
    simp
  · rw [if_neg (by simpa [List.isEmpty_iff] using hA)]
    rw [List.any_eq_true]
    simp only [Bool.or_eq_true, beq_iff_eq, jsStartsWith_iff]
    constructor
    · rintro ⟨a, ha, hab⟩
      exact Or.inr ⟨a, ha, hab⟩
    · rintro (rfl | ⟨a, ha, hab⟩)
      · exact absurd rfl hA
      · exact ⟨a, ha, hab⟩

/-- C4 counterexample: the claim that the session-creation path guard rejects
every relative or `..`-containing `workingDir` is false: the guard accepts
the `..`-containing path `/srv/../etc` under the allow-list `["/srv"]`, and
accepts the relative path `etc/passwd` under the empty allow-list. -/
theorem validatePath_dotdot_relative_cex :
    (hasDotDotSegment "/srv/../etc" = true ∧ validatePath "/srv/../etc" ["/srv"] = true) ∧
    (isAbsolutePath "etc/passwd" = false ∧ validatePath "etc/passwd" [] = true) := by
  decide

/-- C4 (amended): the path guard performs no canonicalization and no
relative-path or `..`-segment check; it accepts any path admitted by the
allow-list prefix rule, in particular every path (relative or not) under the
empty allow-list, and every extension of an allow-list entry by a slash, even
when the extension contains `..` segments. -/
theorem validatePath_no_canonicalization (p a : String) :
    validatePath p [] = true ∧ validatePath (a ++ "/" ++ p) [a] = true := by
  constructor
  · simp [validatePath]
  · unfold validatePath
    rw [if_neg (by simp)]
    rw [List.any_eq_true]
    refine ⟨a, by simp, ?_⟩
    rw [Bool.or_eq_true]
    exact Or.inr ((jsStartsWith_iff _ _).mpr ⟨p, rfl⟩)

/-- C5: after each append-and-trim of a PTY output chunk, the total size of
the retained history chunks is at most `MAX_HISTORY_SIZE` (100 KiB), and the
retained chunks are a suffix of the appended sequence, so eviction only ever
removes the oldest chunks from the front. -/
theorem history_ring_bounded_and_fifo (history : List String) (data : String) :
    sumLen (appendChunk history data) ≤ MAX_HISTORY_SIZE ∧
    ∃ dropped, dropped ++ appendChunk history data = history ++ [data] := by
  constructor
  · exact trimLoop_sum_le (history ++ [data]) _ rfl
  · exact trimLoop_suffix (history ++ [data]) _

/-- C1 counterexample: the claim that the `/ws` upgrade verifies the bearer
token is false: with a stored token whose verification rejects
`"wrong-token"`, the upgrade of a request carrying `token=wrong-token` for an
existing session is still accepted, so the connection is registered. -/
theorem ws_upgrade_accepts_invalid_token_cex :
    (verifyToken (fun t => t) demoTokenFs "wrong-token").1 = false ∧
    fetchWsUpgrade
        { path := "/ws", upgradeHeader := some "websocket",
          sessionId := some "s1", token := some "wrong-token" }
        [("s1", demoSession)] 5 =
      UpgradeOutcome.accepted { sessionId := "s1", connectedAt := 5, initialized := false } := by
  decide

/-- C1 (amended): before accepting a `/ws` upgrade the server checks only
that the `sessionId` query parameter is present and names an existing
registry record; a missing or unknown `sessionId` is rejected with HTTP 400
and no connection is registered; the `token` query parameter is never read,
so its value has no effect on the upgrade decision. -/
theorem ws_upgrade_checks_only_sessionId (req : UpgradeRequest) (sessions : SessionMap)
    (now : Int) :
    (∀ t, fetchWsUpgrade { req with token := t } sessions now = fetchWsUpgrade req sessions now) ∧
    (req.path = "/ws" → req.upgradeHeader = some "websocket" →
      fetchWsUpgrade req sessions now =
        match req.sessionId with
        | none => UpgradeOutcome.rejected 400 "Missing sessionId parameter"
        | some sid =>
          if sessionExists sessions sid then
            UpgradeOutcome.accepted { sessionId := sid, connectedAt := now, initialized := false }
          else UpgradeOutcome.rejected 400 "Missing sessionId parameter") := by
  constructor
  · intro t
    rfl
  · intro hp hu
    simp only [fetchWsUpgrade, getUpgradeData, hp, hu]
    cases hs : req.sessionId with
    | none => simp
    | some sid =>
      by_cases he : sessionExists sessions sid <;> simp [he]

/-- C1 witness: the amended upgrade contract applied to a concrete request
with no `sessionId` parameter. -/
theorem ws_upgrade_checks_only_sessionId_witness :
    fetchWsUpgrade
        { path := "/ws", upgradeHeader := some "websocket", sessionId := none,
          token := some "any-token" } [] 0 =
      UpgradeOutcome.rejected 400 "Missing sessionId parameter" :=
  (ws_upgrade_checks_only_sessionId
    { path := "/ws", upgradeHeader := some "websocket", sessionId := none,
      token := some "any-token" } [] 0).2 rfl rfl

/-- C2 counterexample: the claim that a `DELETE /api/auth` request without a
valid bearer token is rejected with HTTP 401 and leaves the stored hash
unchanged is false: a request carrying no token at all gets HTTP 200 and the
`auth` subtree is removed. -/
theorem delete_auth_untokened_request_clears_hash_cex :
    deleteAuthRoute none demoTokenFs =
      (200, { configFile := some { version := CONFIG_VERSION, auth := none },
              legacyFile := none }) ∧
    (deleteAuthRoute none demoTokenFs).1 ≠ 401 ∧
    (deleteAuthRoute none demoTokenFs).2.configFile ≠ demoTokenFs.configFile := by
  decide

/-- C2 (amended): `DELETE /api/auth` is not token-gated: its outcome is
independent of the `Authorization` header, and whenever a token hash is
stored in the config file, any request (with or without a token) receives
HTTP 200 and removes the `auth` subtree. -/
theorem delete_auth_ignores_authorization (hdr : Option String) (st : TokenFs)
    (cfg : ConfigFile) (a : AuthEntry)
    (hcfg : st.configFile = some cfg) (ha : cfg.auth = some a) :
    deleteAuthRoute hdr st = deleteAuthRoute none st ∧
    (deleteAuthRoute hdr st).1 = 200 ∧
    ((deleteAuthRoute hdr st).2).configFile = some { cfg with auth := none } := by
  refine ⟨rfl, ?_⟩
  unfold deleteAuthRoute deleteToken
  simp only [hcfg, ha]
  cases hl : st.legacyFile <;> simp [hl]

/-- C2 witness: the amended statement applied to a request carrying a bogus
bearer header against the demo token state. -/
theorem delete_auth_ignores_authorization_witness :
    deleteAuthRoute (some "Bearer bogus") demoTokenFs = deleteAuthRoute none demoTokenFs ∧
    (deleteAuthRoute (some "Bearer bogus") demoTokenFs).1 = 200 ∧
    ((deleteAuthRoute (some "Bearer bogus") demoTokenFs).2).configFile =
      some { version := CONFIG_VERSION, auth := none } :=
  delete_auth_ignores_authorization (some "Bearer bogus") demoTokenFs
    { version := CONFIG_VERSION, auth := some { tokenHash := "secret-hash" } }
    { tokenHash := "secret-hash" } rfl rfl

/-- C6: evaluation of the first successful `init` of a fresh connection to an
existing session: the terminal is started, the connection is marked
initialized and `ready` is sent, but the only frames produced are the
`status(running)` broadcast and the `ready` reply: no `history` frame is ever
sent, although the claim requires exactly one after `ready`. -/
theorem handleInit_first_init_no_history_frame :
    handleInit { sessionId := "s1", connectedAt := 0, initialized := false }
        [("s1", demoSession)] 1000 true "spawn failure" =
      ({ sessionId := "s1", connectedAt := 0, initialized := true },
       [("s1", { demoSession with
                 hasProcess := true, status := SessionStatus.running,
                 lastActivity := 1000, outputHistory := some [] })],
       [ServerMsg.ready "s1"],
       [ServerMsg.status SessionStatus.running "s1"]) ∧
    List.countP isHistoryFrame
        ((handleInit { sessionId := "s1", connectedAt := 0, initialized := false }
            [("s1", demoSession)] 1000 true "spawn failure").2.2.1 ++
         (handleInit { sessionId := "s1", connectedAt := 0, initialized := false }
            [("s1", demoSession)] 1000 true "spawn failure").2.2.2) = 0 := by
  decide

/-- C7: an `input` message on a connection whose `initialized` flag is false
is answered with the fixed error frame; nothing is written to the PTY and the
session registry is unchanged. -/
theorem input_before_init_not_written (ws : WsData) (sessions : SessionMap)
    (data : String) (now : Int) (h : ws.initialized = false) :
    handleInput ws sessions data now =
      ([ServerMsg.error "Terminal not initialized. Send init first."], sessions, []) := by
  simp [handleInput, h]

/-- C7 witness: the pre-init input rejection at a concrete connection and
registry. -/
theorem input_before_init_not_written_witness :
    handleInput { sessionId := "s1", connectedAt := 0, initialized := false }
        [("s1", demoSession)] "ls" 7 =
      ([ServerMsg.error "Terminal not initialized. Send init first."],
       [("s1", demoSession)], []) :=
  input_before_init_not_written _ _ _ _ rfl

/-- C8: evaluation of `parseCommand` at a command that is exactly
`--workdir /tmp`: stripping the `--workdir` match leaves the empty string,
and the code substitutes the original command (still containing
`--workdir /tmp`) rather than the literal `claude` required by the claim. -/
theorem parseCommand_workdir_only_fallback :
    parseCommand "--workdir /tmp" "/home/user" =
      ["bash", "-c", "cd \"/tmp\" && --workdir /tmp"] ∧
    parseCommand "--workdir /tmp" "/home/user" ≠
      ["bash", "-c", "cd \"/tmp\" && claude"] := by
  decide

/-- C9: on a reaper tick at time `now`, every registry entry with status
`running` whose `lastActivity` is more than `SESSION_TIMEOUT` (30 minutes)
old is terminated with reason `terminated` (its PTY killed and nulled), and
every entry whose `lastActivity` is within 30 minutes is left unchanged; the
tick period is `HEARTBEAT_INTERVAL` (30 seconds). -/
theorem reaper_terminates_exactly_stale_running (now : Int) (sessions : SessionMap)
    (i : Nat) (id : String) (s : SessionRec) (hi : sessions[i]? = some (id, s)) :
    HEARTBEAT_INTERVAL = 30 * 1000 ∧ SESSION_TIMEOUT = 30 * 60 * 1000 ∧
    (s.status = SessionStatus.running ∧ SESSION_TIMEOUT < now - s.lastActivity →
      (heartbeatTick now sessions)[i]? =
        some (id, terminateRec now SessionStatus.terminated s) ∧
      (terminateRec now SessionStatus.terminated s).status = SessionStatus.terminated ∧
      (terminateRec now SessionStatus.terminated s).hasProcess = false) ∧
    (now - s.lastActivity ≤ SESSION_TIMEOUT →
      (heartbeatTick now sessions)[i]? = some (id, s)) := by
  refine ⟨rfl, rfl, ?_, ?_⟩
  · intro hc
    unfold heartbeatTick
    rw [List.getElem?_map, hi]
    simp [hc]
    exact ⟨rfl, rfl⟩
  · intro hc
    have hnc : ¬ (s.status = SessionStatus.running ∧ SESSION_TIMEOUT < now - s.lastActivity) := by
      rintro ⟨_, hlt⟩
      omega
    unfold heartbeatTick
    rw [List.getElem?_map, hi]
    simp [hnc]

/-- C9 witness: one tick over a stale running session and a fresh running
session: the stale one is terminated, the fresh one untouched. -/
theorem reaper_terminates_exactly_stale_running_witness :
    (heartbeatTick 1800001 [("a", staleSession), ("b", freshSession)])[0]? =
      some ("a", terminateRec 1800001 SessionStatus.terminated staleSession) ∧
    (heartbeatTick 1800001 [("a", staleSession), ("b", freshSession)])[1]? =
      some ("b", freshSession) := by
  constructor
  · exact ((reaper_terminates_exactly_stale_running 1800001
      [("a", staleSession), ("b", freshSession)] 0 "a" staleSession rfl).2.2.1
        ⟨rfl, by decide⟩).1
  · exact (reaper_terminates_exactly_stale_running 1800001
      [("a", staleSession), ("b", freshSession)] 1 "b" freshSession rfl).2.2.2 (by decide)

/-- C10: when the config file stores no `auth` block (or does not exist) and
no legacy `.clicast-token` file exists, `verifyToken` returns false for
every submitted token and every hash function, so before first-time token
initialization every token-gated request is rejected. -/
theorem verifyToken_false_without_stored_hash (hash : String → String) (st : TokenFs)
    (token : String)
    (hcfg : st.configFile = none ∨ ∃ cfg, st.configFile = some cfg ∧ cfg.auth = none)
    (hleg : st.legacyFile = none) :
    (verifyToken hash st token).1 = false := by
  unfold verifyToken getStoredTokenHash migrateLegacyTokenFile legacyHashFallback
  rcases hcfg with h | ⟨cfg, hc, ha⟩
  · simp [h, hleg]
  · simp [hc, ha, hleg]

/-- C10 witness: verification of an arbitrary token fails against a config
file with no `auth` entry and no legacy file. -/
theorem verifyToken_false_without_stored_hash_witness :
    (verifyToken (fun t => t)
        { configFile := some { version := CONFIG_VERSION, auth := none }, legacyFile := none }
        "anytoken").1 = false :=
  verifyToken_false_without_stored_hash (fun t => t)
    { configFile := some { version := CONFIG_VERSION, auth := none }, legacyFile := none }
    "anytoken" (Or.inr ⟨_, rfl, rfl⟩) rfl

end CliCast
